import Mathlib

/-!
Shallow embedding of the crew-schedule optimizer in `src/screen2.py`
(function `optimize_schedule` and its surrounding data).

Numbers: Python floats (start times, durations, duty-hour bounds) are
embedded as rationals; the values occurring in the program are all exactly
representable.  Python `int(...)` truncation toward zero is `pyInt`.

The CP-SAT solver from OR-Tools is an external library: a solve outcome is
modelled as a raw status (the CP-SAT status enum) together with the boolean
decision assignment the solver reports.  The OR-Tools contract — an
assignment reported with status OPTIMAL or FEASIBLE satisfies every
constraint that was added to the model — appears as an explicit hypothesis
(`satisfiesModel`) in the theorems about returned solutions.
-/

unseal Rat.mul Rat.add Rat.sub Rat.inv

/-- A flight record, as in the `FLIGHTS` list of `screen2.py`:
`{'id': ..., 'start': ..., 'duration': ..., 'priority': ...}`. -/
structure Flight where
  id : String
  start : ℚ
  duration : ℚ
  priority : ℕ
  deriving DecidableEq, Repr

/-- The inputs of `optimize_schedule(flights, crews, max_duty, min_rest, max_flights)`. -/
structure Instance where
  flights : List Flight
  crews : List String
  maxDuty : ℚ
  minRest : ℚ
  maxFlights : ℕ
  deriving DecidableEq, Repr

/-- Python `int(q)`: truncation toward zero. -/
def pyInt (q : ℚ) : ℤ := if q < 0 then ⌈q⌉ else ⌊q⌋

/-- A value of every boolean decision variable `assignments[(f_idx, c_idx)]`. -/
def Assignment (inst : Instance) : Type :=
  Fin inst.flights.length → Fin inst.crews.length → Bool

/-- The conflict test of Constraint 4 in `optimize_schedule`:
`not (f1_end + min_rest <= f2['start'] or f2_end + min_rest <= f1['start'])`
with `f1_end = f1['start'] + f1['duration']` (and likewise `f2_end`).
It takes only the two flights and the rest parameter — no crew. -/
def conflictB (minRest : ℚ) (f1 f2 : Flight) : Bool :=
  ! (decide (f1.start + f1.duration + minRest ≤ f2.start)
     || decide (f2.start + f2.duration + minRest ≤ f1.start))

/-- Constraint 1: each flight is assigned to exactly one crew
(`sum(assignments[(f_idx, c_idx)] for c_idx ...) == 1`). -/
def coverageOK (inst : Instance) (x : Assignment inst) : Prop :=
  ∀ f, (∑ c, if x f c then (1 : ℕ) else 0) = 1

/-- Constraint 2: per-crew duty hours, in the fixed-point integer encoding of
the source: `sum(assignments[(f,c)] * int(duration * 100)) <= int(max_duty * 100)`. -/
def dutyOK (inst : Instance) (x : Assignment inst) : Prop :=
  ∀ c, (∑ f, if x f c then pyInt ((inst.flights.get f).duration * 100) else 0)
        ≤ pyInt (inst.maxDuty * 100)

/-- Constraint 3: per-crew flight count `<= max_flights`. -/
def countOK (inst : Instance) (x : Assignment inst) : Prop :=
  ∀ c, (∑ f, if x f c then (1 : ℕ) else 0) ≤ inst.maxFlights

/-- Constraint 4: for every crew and every pair `f1 < f2` whose conflict test
fires, `assignments[(f1,c)] + assignments[(f2,c)] <= 1`. -/
def restOK (inst : Instance) (x : Assignment inst) : Prop :=
  ∀ (c : Fin inst.crews.length) (f1 f2 : Fin inst.flights.length),
    f1.val < f2.val →
    conflictB inst.minRest (inst.flights.get f1) (inst.flights.get f2) = true →
    ((if x f1 c then (1 : ℕ) else 0) + (if x f2 c then 1 else 0)) ≤ 1

/-- All constraints added to the CP model by `optimize_schedule`. -/
def satisfiesModel (inst : Instance) (x : Assignment inst) : Prop :=
  coverageOK inst x ∧ dutyOK inst x ∧ countOK inst x ∧ restOK inst x

instance (inst : Instance) (x : Assignment inst) : Decidable (coverageOK inst x) := by
  unfold coverageOK; infer_instance

instance (inst : Instance) (x : Assignment inst) : Decidable (dutyOK inst x) := by
  unfold dutyOK; infer_instance

instance (inst : Instance) (x : Assignment inst) : Decidable (countOK inst x) := by
  unfold countOK; infer_instance

instance (inst : Instance) (x : Assignment inst) : Decidable (restOK inst x) := by
  unfold restOK; infer_instance

instance (inst : Instance) (x : Assignment inst) : Decidable (satisfiesModel inst x) := by
  unfold satisfiesModel; infer_instance

/-- The exclusion constraints emitted by the Constraint-4 loops, in loop order:
crews outer, then `f1`, then `f2` ranging over `f1+1 .. n-1`, keeping a triple
exactly when the conflict test fires. -/
def exclusionConstraints (inst : Instance) :
    List (Fin inst.crews.length × Fin inst.flights.length × Fin inst.flights.length) :=
  (List.finRange inst.crews.length).flatMap fun c =>
    (List.finRange inst.flights.length).flatMap fun f1 =>
      ((List.finRange inst.flights.length).filter fun f2 => decide (f1.val < f2.val)).filterMap
        fun f2 =>
          if conflictB inst.minRest (inst.flights.get f1) (inst.flights.get f2)
          then some (c, f1, f2) else none

/-- The objective built by `optimize_schedule`: per crew `crew_flights * 10`,
plus per (flight, crew) `assignments[(f,c)] * priority * 5`. -/
def objective (inst : Instance) (x : Assignment inst) : ℕ :=
  (∑ c, (∑ f, if x f c then (1 : ℕ) else 0) * 10)
    + ∑ f, ∑ c, (if x f c then (1 : ℕ) else 0) * (inst.flights.get f).priority * 5

/-- The raw CP-SAT solve statuses relevant to the source
(`cp_model.OPTIMAL`, `cp_model.FEASIBLE`, `cp_model.INFEASIBLE`,
`cp_model.UNKNOWN`, `cp_model.MODEL_INVALID`). -/
inductive CpStatus where
  | OPTIMAL | FEASIBLE | INFEASIBLE | UNKNOWN | MODEL_INVALID
  deriving DecidableEq, Repr

/-- The status-mapping expression of the source:
`'OPTIMAL' if status == cp_model.OPTIMAL else 'FEASIBLE' if status == cp_model.FEASIBLE else 'INFEASIBLE'`. -/
def statusName (s : CpStatus) : String :=
  if s = CpStatus.OPTIMAL then "OPTIMAL"
  else if s = CpStatus.FEASIBLE then "FEASIBLE"
  else "INFEASIBLE"

/-- One row appended to `solution`:
`{'Crew': ..., 'Flight': ..., 'Start': ..., 'Duration': ..., 'End': ..., 'Priority': ...}`. -/
structure AssnRecord where
  crew : String
  flight : String
  start : ℚ
  duration : ℚ
  endTime : ℚ
  priority : ℕ
  deriving DecidableEq, Repr

/-- The (flight index, crew index) pairs whose decision variable is true, in
the extraction loop's order (flights outer, crews inner). -/
def assignedPairs (inst : Instance) (x : Assignment inst) :
    List (Fin inst.flights.length × Fin inst.crews.length) :=
  (List.finRange inst.flights.length).flatMap fun f =>
    (List.finRange inst.crews.length).filterMap fun c =>
      if x f c then some (f, c) else none

/-- The solution row built for one true decision. -/
def render (inst : Instance)
    (p : Fin inst.flights.length × Fin inst.crews.length) : AssnRecord :=
  let fl := inst.flights.get p.1
  { crew := inst.crews.get p.2
    flight := fl.id
    start := fl.start
    duration := fl.duration
    endTime := fl.start + fl.duration
    priority := fl.priority }

/-- The `solution` list built by the extraction loops. -/
def extract (inst : Instance) (x : Assignment inst) : List AssnRecord :=
  (assignedPairs inst x).map (render inst)

/-- Lookup in the `crew_utilization` dict, modelled as an association list. -/
def lookupA (name : String) : List (String × ℚ) → Option ℚ
  | [] => none
  | (k, v) :: rest => if k = name then some v else lookupA name rest

/-- One step of `stats['crew_utilization'][crew] += flight['duration']`
(inserting the key with the new duration when absent). -/
def addUtil (m : List (String × ℚ)) (crew : String) (d : ℚ) : List (String × ℚ) :=
  match m with
  | [] => [(crew, d)]
  | (k, v) :: rest => if k = crew then (k, v + d) :: rest else (k, v) :: addUtil rest crew d

/-- The `stats` dict of `optimize_schedule` (the wall-clock `solve_time`
field is an external measurement and is not embedded). -/
structure Stats where
  status : String
  violations : ℕ
  total_duty_hours : ℚ
  crew_utilization : List (String × ℚ)
  deriving DecidableEq, Repr

/-- `optimize_schedule` downstream of the solver call: given the raw solver
status and the reported decision values, build the `solution` list and the
`stats` dict exactly as the source does.  Extraction, utilization
accumulation, `total_duty_hours` and the violation count all run only under
an OPTIMAL/FEASIBLE raw status. -/
def optimize_schedule (inst : Instance) (status : CpStatus) (x : Assignment inst) :
    List AssnRecord × Stats :=
  if status = CpStatus.OPTIMAL ∨ status = CpStatus.FEASIBLE then
    let sol := extract inst x
    let util := sol.foldl (fun m r => addUtil m r.crew r.duration) []
    (sol,
      { status := statusName status
        violations := inst.crews.countP fun name =>
          match lookupA name util with
          | some v => decide (v > inst.maxDuty)
          | none => false
        total_duty_hours := (util.map fun kv => kv.2).sum
        crew_utilization := util })
  else
    ([], { status := statusName status
           violations := 0
           total_duty_hours := 0
           crew_utilization := [] })

/-! ### Generic list-summation lemmas used to relate the extraction loops
to the Finset sums of the constraint model. -/

section Helpers

variable {α β : Type} {M : Type} [AddCommMonoid M]

theorem sum_map_flatMap (l : List α) (g : α → List β) (w : β → M) :
    ((l.flatMap g).map w).sum = (l.map fun a => ((g a).map w).sum).sum := by
  induction l with
  | nil => simp
  | cons a l ih => simp [ih]

theorem sum_map_filterMap (l : List α) (g : α → Option β) (w : β → M) :
    ((l.filterMap g).map w).sum = (l.map fun a => ((g a).map w).getD 0).sum := by
  induction l with
  | nil => simp
  | cons a l ih =>
    cases h : g a <;> simp [List.filterMap_cons, h, ih]

theorem sum_map_filter (l : List β) (p : β → Bool) (w : β → M) :
    ((l.filter p).map w).sum = (l.map fun b => if p b then w b else 0).sum := by
  induction l with
  | nil => simp
  | cons b l ih =>
    cases h : p b <;> simp [List.filter_cons, h, ih]

theorem countP_eq_sum_map (l : List β) (p : β → Bool) :
    l.countP p = (l.map fun b => if p b then (1 : ℕ) else 0).sum := by
  induction l with
  | nil => simp
  | cons b l ih =>
    cases h : p b <;> simp [List.countP_cons, h, ih, Nat.add_comm]

theorem length_eq_sum_map (l : List β) :
    l.length = (l.map fun _ => (1 : ℕ)).sum := by
  induction l with
  | nil => simp
  | cons b l ih => simp only [List.length_cons, List.map_cons, List.sum_cons, ih]; omega

end Helpers

/-- Master lemma: a weighted sum over the extraction loop's (flight, crew)
pairs equals the corresponding double Finset sum over the decision variables. -/
theorem sum_map_assignedPairs {M : Type} [AddCommMonoid M] (inst : Instance) (x : Assignment inst)
    (w : Fin inst.flights.length × Fin inst.crews.length → M) :
    ((assignedPairs inst x).map w).sum
      = ∑ f, ∑ c, if x f c then w (f, c) else 0 := by
  rw [assignedPairs, sum_map_flatMap, Fin.sum_univ_def]
  apply congrArg List.sum
  apply List.map_congr_left
  intro f _
  rw [sum_map_filterMap, Fin.sum_univ_def]
  apply congrArg List.sum
  apply List.map_congr_left
  intro c _
  cases h : x f c <;> simp [h]

theorem mem_assignedPairs (inst : Instance) (x : Assignment inst)
    (p : Fin inst.flights.length × Fin inst.crews.length) :
    p ∈ assignedPairs inst x ↔ x p.1 p.2 = true := by
  obtain ⟨f, c⟩ := p
  simp only [assignedPairs, List.mem_flatMap, List.mem_filterMap, List.mem_finRange]
  constructor
  · rintro ⟨a, -, b, -, h⟩
    split at h
    · next hx =>
      simp only [Option.some.injEq, Prod.mk.injEq] at h
      obtain ⟨rfl, rfl⟩ := h
      exact hx
    · exact Option.noConfusion h
  · intro hx
    exact ⟨f, trivial, c, trivial, by simp [hx]⟩

/-! ### Claim theorems -/

/-- C1: for every solve whose returned status is OPTIMAL or FEASIBLE (with the
solver-reported assignment satisfying the constraint model, which is the
CP-SAT contract), the returned solution list is exactly one rendered record
per true decision, it has one record per input flight, and every flight index
appears in exactly one (flight, crew) pair of the extraction — no flight is
dropped, duplicated, or split across crews. -/
theorem solution_covers_each_flight_once (inst : Instance) (status : CpStatus)
    (x : Assignment inst)
    (hs : status = CpStatus.OPTIMAL ∨ status = CpStatus.FEASIBLE)
    (hm : satisfiesModel inst x) :
    (optimize_schedule inst status x).1 = (assignedPairs inst x).map (render inst)
    ∧ (assignedPairs inst x).length = inst.flights.length
    ∧ ∀ f₀, (assignedPairs inst x).countP (fun p => decide (p.1 = f₀)) = 1 := by
  obtain ⟨hcov, -, -, -⟩ := hm
  refine ⟨?_, ?_, ?_⟩
  · simp [optimize_schedule, hs, extract]
  · rw [length_eq_sum_map, sum_map_assignedPairs]
    rw [Finset.sum_congr rfl fun f _ => hcov f]
    simp
  · intro f₀
    rw [countP_eq_sum_map]
    have hw : (fun p : Fin inst.flights.length × Fin inst.crews.length =>
        if decide (p.1 = f₀) then (1 : ℕ) else 0)
        = fun p => if p.1 = f₀ then 1 else 0 := by
      funext p; simp
    rw [hw, sum_map_assignedPairs, Finset.sum_eq_single f₀]
    · simpa using hcov f₀
    · intro b _ hb
      simp [hb]
    · intro h
      exact absurd (Finset.mem_univ f₀) h

/-- Scenario A of the spec: one flight (start 6.0, duration 1.0, priority 1),
one crew, maxDutyHours 9, minRest 0.5, maxFlightsPerCrew 4. -/
def instA : Instance :=
  { flights := [⟨"F601", 6, 1, 1⟩], crews := ["C01"], maxDuty := 9, minRest := 1/2,
    maxFlights := 4 }

/-- The assignment giving flight F601 to crew C01. -/
def xA : Assignment instA := fun _ _ => true

theorem solution_covers_each_flight_once_witness :
    satisfiesModel instA xA
    ∧ (optimize_schedule instA CpStatus.OPTIMAL xA).1 = (assignedPairs instA xA).map (render instA)
    ∧ (assignedPairs instA xA).length = instA.flights.length
    ∧ (assignedPairs instA xA).countP (fun p => decide (p.1 = ⟨0, by decide⟩)) = 1 := by
  have hm : satisfiesModel instA xA := by decide
  have h := solution_covers_each_flight_once instA CpStatus.OPTIMAL xA (Or.inl rfl) hm
  exact ⟨hm, h.1, h.2.1, h.2.2 ⟨0, by decide⟩⟩

/-- C5: in every returned OPTIMAL/FEASIBLE solution (solver-reported assignment
satisfying the model), each crew's assigned flights respect both capacity
constraints in the fixed-point encoding of the source: the sum of
`int(duration * 100)` over its assigned flights is at most
`int(max_duty * 100)`, and its assigned-flight count is at most
`max_flights`. -/
theorem returned_solution_respects_capacity (inst : Instance) (status : CpStatus)
    (x : Assignment inst)
    (hs : status = CpStatus.OPTIMAL ∨ status = CpStatus.FEASIBLE)
    (hm : satisfiesModel inst x) :
    (optimize_schedule inst status x).1 = (assignedPairs inst x).map (render inst)
    ∧ ∀ c₀ : Fin inst.crews.length,
      (((assignedPairs inst x).filter fun p => decide (p.2 = c₀)).map
          fun p => pyInt ((inst.flights.get p.1).duration * 100)).sum
        ≤ pyInt (inst.maxDuty * 100)
      ∧ ((assignedPairs inst x).filter fun p => decide (p.2 = c₀)).length
        ≤ inst.maxFlights := by
  obtain ⟨-, hduty, hcount, -⟩ := hm
  refine ⟨by simp [optimize_schedule, hs, extract], fun c₀ => ⟨?_, ?_⟩⟩
  · rw [sum_map_filter, sum_map_assignedPairs]
    have hinner : ∀ f, (∑ c, if x f c then
        (if decide ((f, c).2 = c₀) then pyInt ((inst.flights.get (f, c).1).duration * 100) else 0)
          else 0)
        = (if x f c₀ then pyInt ((inst.flights.get f).duration * 100) else 0) := by
      intro f
      rw [Finset.sum_eq_single c₀]
      · simp
      · intro b _ hb
        simp [hb]
      · intro h
        exact absurd (Finset.mem_univ c₀) h
    rw [Finset.sum_congr rfl fun f _ => hinner f]
    exact hduty c₀
  · rw [length_eq_sum_map, sum_map_filter, sum_map_assignedPairs]
    have hinner : ∀ f, (∑ c, if x f c then
        (if decide ((f, c).2 = c₀) then (1 : ℕ) else 0) else 0)
        = (if x f c₀ then (1 : ℕ) else 0) := by
      intro f
      rw [Finset.sum_eq_single c₀]
      · simp
      · intro b _ hb
        simp [hb]
      · intro h
        exact absurd (Finset.mem_univ c₀) h
    rw [Finset.sum_congr rfl fun f _ => hinner f]
    exact hcount c₀

theorem returned_solution_respects_capacity_witness :
    satisfiesModel instA xA
    ∧ (((assignedPairs instA xA).filter fun p => decide (p.2 = ⟨0, by decide⟩)).map
        fun p => pyInt ((instA.flights.get p.1).duration * 100)).sum
      ≤ pyInt (instA.maxDuty * 100)
    ∧ ((assignedPairs instA xA).filter fun p => decide (p.2 = ⟨0, by decide⟩)).length
      ≤ instA.maxFlights := by
  have hm : satisfiesModel instA xA := by decide
  have h := returned_solution_respects_capacity instA CpStatus.OPTIMAL xA (Or.inl rfl) hm
  exact ⟨hm, (h.2 ⟨0, by decide⟩).1, (h.2 ⟨0, by decide⟩).2⟩

/-- Any assignment covering every flight exactly once attains objective
`10 · (number of flights) + 5 · (sum of all priorities)`: the per-crew
utilization term is linear in the number of assigned flights, so the
objective is independent of which crew receives which flight. -/
theorem objective_eq_of_coverage (inst : Instance) (x : Assignment inst)
    (h : coverageOK inst x) :
    objective inst x = 10 * inst.flights.length + 5 * (inst.flights.map Flight.priority).sum := by
  unfold objective
  have h1 : (∑ c, (∑ f, if x f c then (1 : ℕ) else 0) * 10)
      = (∑ f : Fin inst.flights.length, (1 : ℕ)) * 10 := by
    rw [← Finset.sum_mul, Finset.sum_comm]
    rw [Finset.sum_congr rfl fun f _ => h f]
  have h2 : (∑ f, ∑ c, (if x f c then (1 : ℕ) else 0) * (inst.flights.get f).priority * 5)
      = ∑ f, (inst.flights.get f).priority * 5 := by
    refine Finset.sum_congr rfl fun f _ => ?_
    have : (fun c => (if x f c then (1 : ℕ) else 0) * (inst.flights.get f).priority * 5)
        = fun c => (if x f c then (1 : ℕ) else 0) * ((inst.flights.get f).priority * 5) := by
      funext c; ring
    rw [this, ← Finset.sum_mul, h f, one_mul]
  have h3 : (∑ f, (inst.flights.get f).priority * 5)
      = (inst.flights.map Flight.priority).sum * 5 := by
    rw [← Finset.sum_mul]
    congr 1
    rw [Fin.sum_univ_def]
    have : List.map (fun i => (inst.flights.get i).priority) (List.finRange inst.flights.length)
        = List.map Flight.priority (List.map inst.flights.get
            (List.finRange inst.flights.length)) := by
      rw [List.map_map]
      rfl
    rw [this, List.finRange_map_get]
  rw [h1, h2, h3]
  simp [Finset.card_univ]
  ring

/-- Scenario C of the spec: two non-conflicting flights (6:00+1h and 9:00+1h,
priority 1 each), two crews, generous limits. -/
def instC : Instance :=
  { flights := [⟨"A", 6, 1, 1⟩, ⟨"B", 9, 1, 1⟩], crews := ["W1", "W2"], maxDuty := 9,
    minRest := 1/2, maxFlights := 4 }

/-- Scenario C assignment putting each flight on a distinct crew. -/
def xSpread : Assignment instC := fun f c => f.val == c.val

/-- Scenario C assignment putting both flights on the first crew. -/
def xBoth : Assignment instC := fun _ c => c.val == 0

/-- C7 counterexample: in Scenario C the both-on-one-crew assignment is
constraint-valid and attains exactly the same objective value as the spread
assignment — not a strictly lower one, contrary to the claim. -/
theorem scenarioC_concentrated_not_strictly_worse :
    satisfiesModel instC xSpread ∧ satisfiesModel instC xBoth
    ∧ objective instC xBoth = objective instC xSpread
    ∧ ¬ objective instC xBoth < objective instC xSpread := by decide

/-- C7 (amended): in Scenario C every assignment satisfying the model attains
the same objective value 30 = 10·2 + 5·(1+1); the utilization-spread term is
linear, so spreading the two flights over two crews scores no better than
concentrating them on one. -/
theorem scenarioC_objective_constant (x : Assignment instC)
    (h : satisfiesModel instC x) : objective instC x = 30 := by
  rw [objective_eq_of_coverage instC x h.1]
  decide

theorem scenarioC_objective_constant_witness :
    satisfiesModel instC xSpread ∧ satisfiesModel instC xBoth
    ∧ objective instC xSpread = 30 ∧ objective instC xBoth = 30 := by
  have h1 : satisfiesModel instC xSpread := by decide
  have h2 : satisfiesModel instC xBoth := by decide
  exact ⟨h1, h2, scenarioC_objective_constant xSpread h1,
    scenarioC_objective_constant xBoth h2⟩

/-- C8: two solves of the same instance yield the same objective value; any
two full-coverage assignments attain objective
`10 · (number of flights) + 5 · (sum of all priorities)`, independent of
which crew receives which flight. -/
theorem objective_deterministic (inst : Instance) (x1 x2 : Assignment inst)
    (h1 : coverageOK inst x1) (h2 : coverageOK inst x2) :
    objective inst x1 = 10 * inst.flights.length + 5 * (inst.flights.map Flight.priority).sum
    ∧ objective inst x1 = objective inst x2 := by
  refine ⟨objective_eq_of_coverage inst x1 h1, ?_⟩
  rw [objective_eq_of_coverage inst x1 h1, objective_eq_of_coverage inst x2 h2]

theorem objective_deterministic_witness :
    coverageOK instC xSpread ∧ coverageOK instC xBoth
    ∧ objective instC xSpread
        = 10 * instC.flights.length + 5 * (instC.flights.map Flight.priority).sum
    ∧ objective instC xSpread = objective instC xBoth := by
  have h1 : coverageOK instC xSpread := by decide
  have h2 : coverageOK instC xBoth := by decide
  have h := objective_deterministic instC xSpread xBoth h1 h2
  exact ⟨h1, h2, h.1, h.2⟩

theorem mem_exclusionConstraints (inst : Instance) (c : Fin inst.crews.length)
    (f1 f2 : Fin inst.flights.length) :
    (c, f1, f2) ∈ exclusionConstraints inst
      ↔ f1.val < f2.val
        ∧ conflictB inst.minRest (inst.flights.get f1) (inst.flights.get f2) = true := by
  simp only [exclusionConstraints, List.mem_flatMap, List.mem_filterMap, List.mem_filter,
    List.mem_finRange, true_and]
  constructor
  · rintro ⟨a, b1, b2, hlt, h⟩
    split at h
    · next hc =>
      simp only [Option.some.injEq, Prod.mk.injEq] at h
      obtain ⟨rfl, rfl, rfl⟩ := h
      exact ⟨by simpa using hlt, hc⟩
    · exact Option.noConfusion h
  · rintro ⟨hlt, hc⟩
    exact ⟨c, f1, f2, by simpa using hlt, by rw [if_pos hc]⟩

/-- C4: the Constraint-4 loops emit a pairwise exclusion for crew `c` and the
ordered pair `(f1, f2)` exactly when `f1 < f2` and the conflict test
`NOT (end1 + minRest ≤ start2 OR end2 + minRest ≤ start1)` fires; the test
takes only the two flights and `minRest`, so membership is independent of the
crew: the same conflicting pairs are excluded for every crew. -/
theorem exclusion_constraints_characterized (inst : Instance) (c : Fin inst.crews.length)
    (f1 f2 : Fin inst.flights.length) :
    ((c, f1, f2) ∈ exclusionConstraints inst
      ↔ f1.val < f2.val
        ∧ conflictB inst.minRest (inst.flights.get f1) (inst.flights.get f2) = true)
    ∧ ∀ c', ((c, f1, f2) ∈ exclusionConstraints inst
        ↔ (c', f1, f2) ∈ exclusionConstraints inst) := by
  refine ⟨mem_exclusionConstraints inst c f1 f2, fun c' => ?_⟩
  rw [mem_exclusionConstraints, mem_exclusionConstraints]

/-- Scenario B of the spec: two overlapping flights (6:00+2h and 7:00+2h),
minRest 0.5, a single crew. -/
def instB : Instance :=
  { flights := [⟨"F1", 6, 2, 1⟩, ⟨"F2", 7, 2, 1⟩], crews := ["C1"], maxDuty := 9,
    minRest := 1/2, maxFlights := 4 }

theorem exclusion_constraints_characterized_witness :
    (⟨0, by decide⟩, ⟨0, by decide⟩, ⟨1, by decide⟩) ∈ exclusionConstraints instB :=
  (exclusion_constraints_characterized instB ⟨0, by decide⟩ ⟨0, by decide⟩
    ⟨1, by decide⟩).1.mpr (by decide)

/-- C6: when `workerCount × maxTasksPerWorker < taskCount`, no assignment
satisfies the model (pigeonhole over the coverage and task-count
constraints), hence — given solver soundness, i.e. an OPTIMAL/FEASIBLE raw
status comes with a model-satisfying assignment — the reported status is
INFEASIBLE. -/
theorem pigeonhole_infeasible (inst : Instance)
    (h : inst.crews.length * inst.maxFlights < inst.flights.length) :
    (∀ x : Assignment inst, ¬ satisfiesModel inst x)
    ∧ ∀ (status : CpStatus) (x : Assignment inst),
        ((status = CpStatus.OPTIMAL ∨ status = CpStatus.FEASIBLE) → satisfiesModel inst x) →
        (optimize_schedule inst status x).2.status = "INFEASIBLE" := by
  have key : ∀ x : Assignment inst, ¬ satisfiesModel inst x := by
    intro x hm
    obtain ⟨hcov, -, hcnt, -⟩ := hm
    have h1 : inst.flights.length = ∑ f : Fin inst.flights.length, (1 : ℕ) := by simp
    have h2 : (∑ f : Fin inst.flights.length, (1 : ℕ))
        = ∑ f, ∑ c, if x f c then (1 : ℕ) else 0 :=
      Finset.sum_congr rfl fun f _ => (hcov f).symm
    have h3 : (∑ f, ∑ c, if x f c then (1 : ℕ) else 0)
        = ∑ c, ∑ f, if x f c then (1 : ℕ) else 0 := Finset.sum_comm
    have h4 : (∑ c : Fin inst.crews.length, ∑ f, if x f c then (1 : ℕ) else 0)
        ≤ ∑ c : Fin inst.crews.length, inst.maxFlights :=
      Finset.sum_le_sum fun c _ => hcnt c
    have h5 : (∑ c : Fin inst.crews.length, inst.maxFlights)
        = inst.crews.length * inst.maxFlights := by
      simp [Finset.sum_const, Finset.card_univ]
    have hle : inst.flights.length ≤ inst.crews.length * inst.maxFlights := by
      rw [h1, h2, h3, ← h5]
      exact h4
    exact absurd (lt_of_le_of_lt hle h) (lt_irrefl _)
  refine ⟨key, fun status x hsound => ?_⟩
  have hns : ¬(status = CpStatus.OPTIMAL ∨ status = CpStatus.FEASIBLE) :=
    fun hc => key x (hsound hc)
  have hname : statusName status = "INFEASIBLE" := by
    cases status
    · exact absurd (Or.inl rfl) hns
    · exact absurd (Or.inr rfl) hns
    · rfl
    · rfl
    · rfl
  simp [optimize_schedule, hns, hname]

/-- Two flights, one crew, at most one flight per crew: 1 × 1 < 2. -/
def inst6 : Instance :=
  { flights := [⟨"F1", 6, 1, 1⟩, ⟨"F2", 9, 1, 1⟩], crews := ["C1"], maxDuty := 9,
    minRest := 0, maxFlights := 1 }

theorem pigeonhole_infeasible_witness :
    ¬ satisfiesModel inst6 (fun _ _ => true)
    ∧ (optimize_schedule inst6 CpStatus.INFEASIBLE (fun _ _ => false)).2.status
      = "INFEASIBLE" := by
  have h := pigeonhole_infeasible inst6 (by decide)
  exact ⟨h.1 _, h.2 CpStatus.INFEASIBLE _ (by decide)⟩

/-- C2 counterexample: the raw UNKNOWN status — which CP-SAT returns when the
wall-clock limit elapses with no feasible solution found — is mapped to
"INFEASIBLE" by the source's status expression; no "TIMEDOUT" tag exists. -/
theorem unknown_status_mapped_to_infeasible :
    statusName CpStatus.UNKNOWN = "INFEASIBLE"
    ∧ statusName CpStatus.UNKNOWN ≠ "TIMEDOUT" := by decide

/-- C2 (amended): the status string is one of exactly three values OPTIMAL,
FEASIBLE, INFEASIBLE; OPTIMAL and FEASIBLE are reported exactly for the
corresponding raw solver statuses, and every other raw status (INFEASIBLE,
UNKNOWN, MODEL_INVALID) is reported as INFEASIBLE; TIMEDOUT is never
produced. -/
theorem statusName_range (s : CpStatus) :
    (statusName s = "OPTIMAL" ∨ statusName s = "FEASIBLE" ∨ statusName s = "INFEASIBLE")
    ∧ (statusName s = "OPTIMAL" ↔ s = CpStatus.OPTIMAL)
    ∧ (statusName s = "FEASIBLE" ↔ s = CpStatus.FEASIBLE)
    ∧ statusName s ≠ "TIMEDOUT" := by
  cases s <;> decide

theorem statusName_range_witness : statusName CpStatus.OPTIMAL = "OPTIMAL" :=
  (statusName_range CpStatus.OPTIMAL).2.1.mpr rfl

/-- C10: when the raw status is neither OPTIMAL nor FEASIBLE, the extraction
and violation-counting steps do not run: the returned solution list is empty
and the statistics stay at their initial values (violations 0, total duty
hours 0, empty per-crew utilization mapping). -/
theorem failed_solve_returns_empty (inst : Instance) (status : CpStatus) (x : Assignment inst)
    (h1 : status ≠ CpStatus.OPTIMAL) (h2 : status ≠ CpStatus.FEASIBLE) :
    (optimize_schedule inst status x).1 = []
    ∧ (optimize_schedule inst status x).2.violations = 0
    ∧ (optimize_schedule inst status x).2.total_duty_hours = 0
    ∧ (optimize_schedule inst status x).2.crew_utilization = [] := by
  have hns : ¬(status = CpStatus.OPTIMAL ∨ status = CpStatus.FEASIBLE) := by tauto
  simp [optimize_schedule, hns]

theorem failed_solve_returns_empty_witness :
    (optimize_schedule instA CpStatus.UNKNOWN xA).1 = []
    ∧ (optimize_schedule instA CpStatus.UNKNOWN xA).2.violations = 0
    ∧ (optimize_schedule instA CpStatus.UNKNOWN xA).2.total_duty_hours = 0
    ∧ (optimize_schedule instA CpStatus.UNKNOWN xA).2.crew_utilization = [] :=
  failed_solve_returns_empty instA CpStatus.UNKNOWN xA (by decide) (by decide)

/-! ### Violation counting (claim C3) -/

/-- Total duration assigned to the crew name (the merged value of the
`crew_utilization` bucket for that name). -/
def dutyByName (inst : Instance) (x : Assignment inst) (name : String) : ℚ :=
  ∑ f, ∑ c, if inst.crews.get c = name ∧ x f c then (inst.flights.get f).duration else 0

/-- The crew name owns at least one assigned flight (the name is a key of
`crew_utilization`). -/
def assignedName (inst : Instance) (x : Assignment inst) (name : String) : Prop :=
  ∃ f c, inst.crews.get c = name ∧ x f c = true

instance (inst : Instance) (x : Assignment inst) (name : String) :
    Decidable (assignedName inst x name) := by
  unfold assignedName; infer_instance

theorem lookupA_addUtil (m : List (String × ℚ)) (k name : String) (d : ℚ) :
    lookupA name (addUtil m k d)
      = if k = name then some ((lookupA name m).getD 0 + d) else lookupA name m := by
  induction m with
  | nil =>
    by_cases h : k = name <;> simp [addUtil, lookupA, h]
  | cons kv rest ih =>
    obtain ⟨k', v⟩ := kv
    by_cases hk : k' = k
    · subst hk
      by_cases h : k' = name
      · subst h
        simp [addUtil, lookupA]
      · simp [addUtil, lookupA, h]
    · by_cases h : k' = name
      · subst h
        have hkn : k ≠ k' := fun he => hk he.symm
        simp [addUtil, lookupA, hk, hkn]
      · simp [addUtil, lookupA, hk, h, ih]

theorem lookupA_foldl_addUtil (l : List AssnRecord) (m : List (String × ℚ)) (name : String) :
    lookupA name (l.foldl (fun acc r => addUtil acc r.crew r.duration) m)
      = if ((lookupA name m).isSome || l.any fun r => decide (r.crew = name))
        then some ((lookupA name m).getD 0
            + ((l.filter fun r => decide (r.crew = name)).map fun r => r.duration).sum)
        else none := by
  induction l generalizing m with
  | nil =>
    cases h : lookupA name m <;> simp [h]
  | cons r rest ih =>
    rw [List.foldl_cons, ih, lookupA_addUtil]
    by_cases hc : r.crew = name
    · simp [hc, List.filter_cons, add_assoc]
    · simp [hc, List.filter_cons]

theorem extract_any_iff (inst : Instance) (x : Assignment inst) (name : String) :
    (((extract inst x).any fun r => decide (r.crew = name)) = true)
      ↔ assignedName inst x name := by
  rw [List.any_eq_true]
  constructor
  · rintro ⟨r, hr, hcrew⟩
    rw [extract, List.mem_map] at hr
    obtain ⟨p, hp, rfl⟩ := hr
    rw [mem_assignedPairs] at hp
    refine ⟨p.1, p.2, ?_, hp⟩
    simpa [render] using hcrew
  · rintro ⟨f, c, hcrew, hx⟩
    refine ⟨render inst (f, c), ?_,
      by simp [render, List.get_eq_getElem] at hcrew ⊢; exact hcrew⟩
    rw [extract, List.mem_map]
    exact ⟨(f, c), (mem_assignedPairs inst x (f, c)).mpr hx, rfl⟩

theorem extract_filter_sum (inst : Instance) (x : Assignment inst) (name : String) :
    (((extract inst x).filter fun r => decide (r.crew = name)).map fun r => r.duration).sum
      = dutyByName inst x name := by
  rw [extract, List.filter_map, List.map_map, sum_map_filter, sum_map_assignedPairs]
  unfold dutyByName
  refine Finset.sum_congr rfl fun f _ => Finset.sum_congr rfl fun c _ => ?_
  by_cases hx : x f c <;> by_cases hn : inst.crews.get c = name <;>
    simp [hx, hn, render, Function.comp]

/-- Two fully-overlapping flights and one crew; assigning both flights to the
single crew violates the non-overlap constraint but stays within duty hours. -/
def inst3 : Instance :=
  { flights := [⟨"A", 6, 2, 1⟩, ⟨"B", 6, 2, 1⟩], crews := ["C1"], maxDuty := 9,
    minRest := 0, maxFlights := 4 }

/-- The assignment putting both overlapping flights on the single crew. -/
def x3 : Assignment inst3 := fun _ _ => true

/-- C3 counterexample: an assignment that breaks the non-overlap hard
constraint (both overlapping flights on one crew) is reported with
violations = 0, because the violation counter only re-checks duty hours. -/
theorem violations_zero_despite_constraint_violation :
    ¬ satisfiesModel inst3 x3
    ∧ (optimize_schedule inst3 CpStatus.OPTIMAL x3).2.violations = 0 := by
  constructor
  · decide
  · decide

/-- C3 (amended): for every OPTIMAL/FEASIBLE solve, the reported violation
count equals the number of crew-name entries whose accumulated assigned
duration exceeds maxDutyHours (counting only names that own at least one
assigned flight).  Coverage, task-count capacity and non-overlap are not
re-checked, so violations = 0 does not imply the assignment satisfies all
four hard-constraint families. -/
theorem violations_counts_only_duty_overruns (inst : Instance) (status : CpStatus)
    (x : Assignment inst)
    (hs : status = CpStatus.OPTIMAL ∨ status = CpStatus.FEASIBLE) :
    (optimize_schedule inst status x).2.violations
      = inst.crews.countP fun name =>
          decide (assignedName inst x name ∧ dutyByName inst x name > inst.maxDuty) := by
  have hopt : (optimize_schedule inst status x).2.violations
      = inst.crews.countP (fun name =>
          match lookupA name ((extract inst x).foldl
              (fun acc r => addUtil acc r.crew r.duration) []) with
          | some v => decide (v > inst.maxDuty)
          | none => false) := by
    simp [optimize_schedule, hs]
  rw [hopt]
  apply List.countP_congr
  intro name _
  rw [lookupA_foldl_addUtil]
  simp only [lookupA, Option.isSome_none, Bool.false_or, Option.getD_none, zero_add]
  by_cases h : assignedName inst x name
  · have hb : ((extract inst x).any fun r => decide (r.crew = name)) = true :=
      (extract_any_iff inst x name).mpr h
    rw [hb]
    simp [extract_filter_sum, h]
  · have hb : ((extract inst x).any fun r => decide (r.crew = name)) = false := by
      rw [← Bool.not_eq_true]
      exact fun hc => h ((extract_any_iff inst x name).mp hc)
    rw [hb]
    simp [h]

theorem violations_counts_only_duty_overruns_witness :
    (optimize_schedule inst3 CpStatus.OPTIMAL x3).2.violations
      = inst3.crews.countP fun name =>
          decide (assignedName inst3 x3 name ∧ dutyByName inst3 x3 name > inst3.maxDuty) :=
  violations_counts_only_duty_overruns inst3 CpStatus.OPTIMAL x3 (Or.inl rfl)

/-- The spec's §4.1/§7 invalidity criteria, written from the spec's words for
comparison with the code (which has no validation): any duration ≤ 0, the
duty-hour bound ≤ 0, the task-count bound ≤ 0, or duplicate flight/crew
identifiers. -/
def specInvalidInstance (inst : Instance) : Prop :=
  (∃ f ∈ inst.flights, f.duration ≤ 0) ∨ inst.maxDuty ≤ 0 ∨ inst.maxFlights = 0
    ∨ ¬ (inst.flights.map Flight.id).Nodup ∨ ¬ inst.crews.Nodup

instance (inst : Instance) : Decidable (specInvalidInstance inst) := by
  unfold specInvalidInstance; infer_instance

/-- A malformed instance per the spec: its single flight has duration 0. -/
def badInst : Instance :=
  { flights := [⟨"F0", 6, 0, 1⟩], crews := ["C1"], maxDuty := 9, minRest := 1/2,
    maxFlights := 4 }

/-- The assignment giving the zero-duration flight to the single crew. -/
def xBad : Assignment badInst := fun _ _ => true

/-- C9 counterexample: an instance that is invalid per the spec (non-positive
duration) raises nothing: the model is built, a solve proceeds, and an
OPTIMAL outcome with a non-empty assignment list is returned. -/
theorem invalid_instance_solved_normally :
    specInvalidInstance badInst
    ∧ satisfiesModel badInst xBad
    ∧ (optimize_schedule badInst CpStatus.OPTIMAL xBad).1 ≠ []
    ∧ (optimize_schedule badInst CpStatus.OPTIMAL xBad).2.status = "OPTIMAL" := by decide

/-- C9 (amended): `optimize_schedule` performs no input validation and has no
InvalidInstance error path: even for instances invalid per the spec's
criteria, the pipeline runs normally — the status string is the solver
status mapping, and under an OPTIMAL/FEASIBLE raw status the extraction is
performed as usual. -/
theorem no_input_validation (inst : Instance) (hinv : specInvalidInstance inst)
    (status : CpStatus) (x : Assignment inst) :
    (optimize_schedule inst status x).2.status = statusName status
    ∧ ((status = CpStatus.OPTIMAL ∨ status = CpStatus.FEASIBLE) →
        (optimize_schedule inst status x).1 = extract inst x) := by
  clear hinv
  constructor
  · by_cases hs : status = CpStatus.OPTIMAL ∨ status = CpStatus.FEASIBLE <;>
      simp [optimize_schedule, hs]
  · intro hs
    simp [optimize_schedule, hs]

theorem no_input_validation_witness :
    (optimize_schedule badInst CpStatus.OPTIMAL xBad).2.status = statusName CpStatus.OPTIMAL
    ∧ (optimize_schedule badInst CpStatus.OPTIMAL xBad).1 = extract badInst xBad := by
  have h := no_input_validation badInst (by decide) CpStatus.OPTIMAL xBad
  exact ⟨h.1, h.2 (Or.inl rfl)⟩
